import Mathlib

/-!
Verification development for the `executor` module of `src/lib.rs` of the
openai-component repository: a shallow embedding of the readiness registry,
the task executor (`executor::run`), the outgoing body sink
(`executor::outgoing_body`), the incoming body stream
(`executor::incoming_body`) and the dispatch bridge
(`executor::outgoing_request_send`), together with theorems about their
behaviour. Host handles and error payloads are modelled as natural numbers;
byte buffers as lists of naturals; the host's responses to each host call
(`stream.read`, `trailers.get`, `stream.check_write`, `stream.write`,
`response.get`, `io::poll::poll`) are supplied by explicit oracles indexed by
the number of calls made so far, so every theorem quantifies over all host
behaviours of the relevant shape.
-/

namespace OAIC

/-- `READ_SIZE` from the source: the bound passed to every `stream.read`. -/
def READ_SIZE : Nat := 16 * 1024

/-! ### Incoming body stream (`executor::incoming_body`)

The closure state of `incoming_body` is the tagged `Inner` enum
(`Stream`/`Trailers`/`Closed`).  `IncState` additionally records, for the
theorems, how many `stream.read` and `trailers.get` host calls have been
issued, how many readiness registrations were pushed onto `WAKERS`, whether
the input stream handle was dropped and how many times
`IncomingBody::finish` (the finalize routine) ran. -/

/-- The `Inner` enum of `incoming_body`: `Stream {..}`, `Trailers(..)`, `Closed`. -/
inductive IncomingInner where
  | stream
  | trailers
  | closed
deriving DecidableEq, Repr

/-- Result of one host `stream.read(READ_SIZE)` call:
`Ok(buffer)`, `Err(StreamError::Closed)` or
`Err(StreamError::LastOperationFailed(e))`. -/
inductive ReadResult where
  | ok (buffer : List Nat)
  | closed
  | lastOperationFailed (error : Nat)
deriving DecidableEq, Repr

/-- The inner `Result<Option<Trailers>, ErrorCode>` carried by a resolved
trailers future. -/
inductive TrailerVal where
  | ok (t : Option Nat)
  | err (e : Nat)
deriving DecidableEq, Repr

/-- Result of one host `trailers.get()` call: `None` (not ready),
`Some(Err(_))` (value already taken by an earlier `get`), or
`Some(Ok(v))`. -/
inductive TrailersGet where
  | notReady
  | gotten
  | available (v : TrailerVal)
deriving DecidableEq, Repr

/-- State threaded through polls of the incoming body stream. -/
structure IncState where
  inner : IncomingInner
  readCount : Nat
  getCount : Nat
  streamRegs : Nat
  trailerRegs : Nat
  streamDropped : Bool
  finishCount : Nat
deriving DecidableEq, Repr

/-- Outcome of one poll of the stream: `Poll::Pending`,
`Poll::Ready(Some(Ok(chunk)))`, `Poll::Ready(Some(Err(e)))`,
`Poll::Ready(None)`, or execution of the `unreachable!()` branch. -/
inductive PollOut where
  | pending
  | item (chunk : List Nat)
  | errorItem (e : Nat)
  | done
  | panicked
deriving DecidableEq, Repr

/-- The `Inner::Trailers` arm of the poll loop: one `trailers.get()` call.
`None` registers the trailer source and suspends; `Some(Err(_))` is the
`unreachable!()`; `Some(Ok(v))` moves to `Closed` and either propagates a
metadata error or (for `Ok(Some(_))` and `Ok(None)` alike) falls through to
the `Closed` arm, which ends the sequence. -/
def pollTrailers (tg : Nat → TrailersGet) (st : IncState) : IncState × PollOut :=
  match tg st.getCount with
  | .notReady =>
      ({ st with getCount := st.getCount + 1, trailerRegs := st.trailerRegs + 1 }, .pending)
  | .gotten =>
      ({ st with getCount := st.getCount + 1 }, .panicked)
  | .available v =>
      match v with
      | .err e => ({ st with getCount := st.getCount + 1, inner := .closed }, .errorItem e)
      | .ok _ => ({ st with getCount := st.getCount + 1, inner := .closed }, .done)

/-- One poll of the `incoming_body` stream.  `rd` and `tg` are the host's
responses to the n-th `stream.read` and `trailers.get` calls.  In the
`Stream` arm, a read of `Ok([])` registers the stream's readiness source and
suspends; `Ok(buffer)` with a non-empty buffer yields the chunk;
`Err(Closed)` drops the stream handle, runs `IncomingBody::finish` on the
parent body (producing the trailers future) and continues the loop in the
`Trailers` arm within the same poll; `Err(LastOperationFailed(e))` yields an
error item with the state left in `Stream`. -/
def incomingBodyPoll (rd : Nat → ReadResult) (tg : Nat → TrailersGet)
    (st : IncState) : IncState × PollOut :=
  match st.inner with
  | .closed => (st, .done)
  | .trailers => pollTrailers tg st
  | .stream =>
      match rd st.readCount with
      | .ok buf =>
          if buf.isEmpty then
            ({ st with readCount := st.readCount + 1,
                       streamRegs := st.streamRegs + 1 }, .pending)
          else
            ({ st with readCount := st.readCount + 1 }, .item buf)
      | .lastOperationFailed e =>
          ({ st with readCount := st.readCount + 1 }, .errorItem e)
      | .closed =>
          pollTrailers tg
            { st with readCount := st.readCount + 1, streamDropped := true,
                      finishCount := st.finishCount + 1, inner := .trailers }

/-- Initial closure state of `incoming_body`: `Inner::Stream`, no host calls
made, nothing registered, nothing finalized. -/
def incomingInit : IncState :=
  { inner := .stream, readCount := 0, getCount := 0, streamRegs := 0,
    trailerRegs := 0, streamDropped := false, finishCount := 0 }

/-- State after `n` polls of the incoming body stream from the initial state. -/
def incomingIter (rd : Nat → ReadResult) (tg : Nat → TrailersGet) : Nat → IncState
  | 0 => incomingInit
  | n + 1 => (incomingBodyPoll rd tg (incomingIter rd tg n)).1

/-- `Drop for Incoming`: `mem::replace` the state with `Closed`; if it was
`Stream`, drop the stream handle and run `IncomingBody::finish`; in
`Trailers` or `Closed` do nothing further. -/
def incomingDrop (st : IncState) : IncState :=
  match st.inner with
  | .stream =>
      { st with inner := .closed, streamDropped := true,
                finishCount := st.finishCount + 1 }
  | .trailers => { st with inner := .closed }
  | .closed => { st with inner := .closed }

/-- Finalization invariant of the incoming channel: `IncomingBody::finish`
has run exactly when the state has left `Stream`. -/
def FinInv (st : IncState) : Prop :=
  st.finishCount = if st.inner = .stream then 0 else 1

theorem finInv_pollTrailers (tg : Nat → TrailersGet) (st : IncState)
    (h : FinInv st) (hs : st.inner ≠ .stream) :
    FinInv (pollTrailers tg st).1 := by
  unfold FinInv at h ⊢
  unfold pollTrailers
  cases htg : tg st.getCount with
  | notReady => simpa [htg, hs] using h
  | gotten => simpa [htg, hs] using h
  | available v =>
      cases v with
      | err e => simp [htg]; simpa [hs] using h
      | ok t => simp [htg]; simpa [hs] using h

theorem finInv_poll (rd : Nat → ReadResult) (tg : Nat → TrailersGet)
    (st : IncState) (h : FinInv st) :
    FinInv (incomingBodyPoll rd tg st).1 := by
  unfold incomingBodyPoll
  cases hi : st.inner with
  | closed => simpa [hi] using h
  | trailers =>
      exact finInv_pollTrailers tg st h (by simp [hi])
  | stream =>
      have h0 : st.finishCount = 0 := by simpa [FinInv, hi] using h
      cases hr : rd st.readCount with
      | ok buf =>
          by_cases hb : buf.isEmpty <;> simp [hr, hb, FinInv, hi, h0]
      | lastOperationFailed e => simp [hr, FinInv, hi, h0]
      | closed =>
          exact finInv_pollTrailers tg _ (by simp [FinInv, h0]) (by simp)

theorem finInv_iter (rd : Nat → ReadResult) (tg : Nat → TrailersGet) (n : Nat) :
    FinInv (incomingIter rd tg n) := by
  induction n with
  | zero => simp [incomingIter, incomingInit, FinInv]
  | succ n ih => exact finInv_poll rd tg _ ih

theorem incomingDrop_closed (st : IncState) (h : st.inner = .closed) :
    (incomingDrop st).finishCount = st.finishCount := by
  unfold incomingDrop
  rw [h]

theorem finInv_drop (st : IncState) (h : FinInv st) :
    (incomingDrop st).finishCount = 1 ∧ (incomingDrop st).inner = .closed := by
  unfold FinInv at h
  unfold incomingDrop
  cases hi : st.inner <;> simp [hi] at h ⊢ <;> omega

/-! ### Outgoing channel finalization (`Outgoing` and its `Drop` impl)

The sink's poll closures only borrow the shared `Outgoing` cell (they read
the stream handle through `pair.borrow()` and never call `take`); the only
code that finalizes is `Drop for Outgoing`, which `take`s the
`Option<(OutputStream, OutgoingBody)>` and, when it was still `Some`, drops
the stream handle and calls `OutgoingBody::finish(body, None)`. -/

/-- The `Outgoing(Option<(OutputStream, OutgoingBody)>)` cell, with counters
recording what the finalize routine has done. -/
structure OutgoingState where
  present : Bool
  streamDropped : Bool
  finishCount : Nat
deriving DecidableEq, Repr

/-- Cell as created by `outgoing_body`: handles present, nothing finalized. -/
def outgoingInit : OutgoingState :=
  { present := true, streamDropped := false, finishCount := 0 }

/-- `Drop for Outgoing`: `take` the option; if it was `Some`, drop the
stream, then `OutgoingBody::finish(body, None)`. -/
def outgoingDrop (st : OutgoingState) : OutgoingState :=
  if st.present then
    { present := false, streamDropped := true, finishCount := st.finishCount + 1 }
  else st

/-- C1: On every execution path of the Outgoing Body Sink and the Incoming
Body Stream — any host read behaviour `rd`/`tg`, any number `n` of polls
before the adapter is dropped (covering normal completion, read errors and
early drop) — the finalize routine runs exactly once: the incoming channel's
`IncomingBody::finish` count is 1 after drop (and a hypothetical second drop
would not run it again), and the outgoing channel's
`OutgoingBody::finish` count is 1 after drop (the `Option::take` guard
making a second drop a no-op as well). -/
theorem c1_finalize_exactly_once (rd : Nat → ReadResult) (tg : Nat → TrailersGet)
    (n : Nat) :
    (incomingDrop (incomingIter rd tg n)).finishCount = 1 ∧
    (incomingDrop (incomingDrop (incomingIter rd tg n))).finishCount = 1 ∧
    (outgoingDrop outgoingInit).finishCount = 1 ∧
    (outgoingDrop (outgoingDrop outgoingInit)).finishCount = 1 ∧
    (outgoingDrop outgoingInit).streamDropped = true := by
  have h := finInv_drop _ (finInv_iter rd tg n)
  refine ⟨h.1, ?_, by simp [outgoingDrop, outgoingInit], by simp [outgoingDrop, outgoingInit], by simp [outgoingDrop, outgoingInit]⟩
  rw [incomingDrop_closed _ h.2]
  exact h.1

/-! ### Read-error behaviour, trailer phase, zero-length reads, chunk bounds -/

theorem pollTrailers_inner (tg : Nat → TrailersGet) (st : IncState) :
    (pollTrailers tg st).1.inner = st.inner ∨ (pollTrailers tg st).1.inner = .closed := by
  unfold pollTrailers
  cases tg st.getCount with
  | notReady => left; rfl
  | gotten => left; rfl
  | available v => cases v <;> right <;> rfl

theorem pollTrailers_ne_item (tg : Nat → TrailersGet) (st : IncState)
    (buf : List Nat) : (pollTrailers tg st).2 ≠ .item buf := by
  unfold pollTrailers
  cases tg st.getCount with
  | notReady => simp
  | gotten => simp
  | available v => cases v <;> simp

/-- Host behaviour refuting C3 as stated: the first read fails with
`LastOperationFailed(7)`, the second read yields the byte `1`. -/
def rdC3 : Nat → ReadResult :=
  fun n => if n = 0 then .lastOperationFailed 7 else .ok [1]

/-- Trailer oracle for the C3 scenario (never consulted before the stream
closes). -/
def tgC3 : Nat → TrailersGet := fun _ => .notReady

/-- C3 counterexample: after the poll that yields the read-failure error
item, the stream does **not** end — the very next pull performs another
`stream.read` and yields a data chunk, so "every subsequent pull returns no
more items" is false on the code (the `LastOperationFailed` arm leaves the
state in `Inner::Stream`). -/
theorem c3_counterexample :
    (incomingBodyPoll rdC3 tgC3 (incomingIter rdC3 tgC3 0)).2 = .errorItem 7 ∧
    (incomingBodyPoll rdC3 tgC3 (incomingIter rdC3 tgC3 1)).2 = .item [1] ∧
    (incomingBodyPoll rdC3 tgC3 (incomingIter rdC3 tgC3 1)).2 ≠ .done := by
  decide

/-- C3 (amended): a read-level I/O failure yields exactly one error item for
that poll, and the stream stays in the `Reading` state with only the read
counter advanced — the sequence is not terminated, and a subsequent pull
attempts a further read. -/
theorem c3_error_remains_reading (rd : Nat → ReadResult) (tg : Nat → TrailersGet)
    (st : IncState) (e : Nat) (h : st.inner = .stream)
    (he : rd st.readCount = .lastOperationFailed e) :
    incomingBodyPoll rd tg st = ({ st with readCount := st.readCount + 1 }, .errorItem e) := by
  unfold incomingBodyPoll
  rw [h, he]

/-- Witness for `c3_error_remains_reading` at the concrete C3 host. -/
theorem c3_error_remains_reading_witness :
    incomingBodyPoll rdC3 tgC3 incomingInit =
      ({ incomingInit with readCount := incomingInit.readCount + 1 }, .errorItem 7) :=
  c3_error_remains_reading rdC3 tgC3 incomingInit 7 rfl rfl

/-- C5: behaviour of the `AwaitingTrailers` state.  If `trailers.get()` is
available with a metadata-level error, the poll yields exactly one
propagated error item, moves to `Closed`, and the next poll ends the
sequence; if available as success (trailers present or absent alike), the
poll moves to `Closed` and ends the sequence with no item; if unavailable,
it registers the trailer source's readiness and suspends, staying in
`AwaitingTrailers`. -/
theorem c5_trailer_phase (rd : Nat → ReadResult) (tg : Nat → TrailersGet)
    (st : IncState) (h : st.inner = .trailers) :
    (∀ e, tg st.getCount = .available (.err e) →
      incomingBodyPoll rd tg st =
        ({ st with getCount := st.getCount + 1, inner := .closed }, .errorItem e) ∧
      (incomingBodyPoll rd tg
        { st with getCount := st.getCount + 1, inner := .closed }).2 = .done) ∧
    (∀ t, tg st.getCount = .available (.ok t) →
      incomingBodyPoll rd tg st =
        ({ st with getCount := st.getCount + 1, inner := .closed }, .done)) ∧
    (tg st.getCount = .notReady →
      incomingBodyPoll rd tg st =
        ({ st with getCount := st.getCount + 1,
                   trailerRegs := st.trailerRegs + 1 }, .pending)) := by
  refine ⟨?_, ?_, ?_⟩
  · intro e he
    constructor
    · unfold incomingBodyPoll pollTrailers
      rw [h, he]
    · unfold incomingBodyPoll
      rfl
  · intro t ht
    unfold incomingBodyPoll pollTrailers
    rw [h, ht]
  · intro hn
    unfold incomingBodyPoll pollTrailers
    rw [h, hn]

/-- Witness for `c5_trailer_phase`: a state sitting in `AwaitingTrailers`. -/
theorem c5_trailer_phase_witness :
    (∀ e, tgC3 1 = .available (.err e) →
      incomingBodyPoll rdC3 tgC3 { incomingInit with inner := .trailers, getCount := 1 } =
        ({ { incomingInit with inner := .trailers, getCount := 1 } with
            getCount := 1 + 1, inner := .closed }, .errorItem e) ∧
      (incomingBodyPoll rdC3 tgC3
        { { incomingInit with inner := .trailers, getCount := 1 } with
            getCount := 1 + 1, inner := .closed }).2 = .done) ∧
    (∀ t, tgC3 1 = .available (.ok t) →
      incomingBodyPoll rdC3 tgC3 { incomingInit with inner := .trailers, getCount := 1 } =
        ({ { incomingInit with inner := .trailers, getCount := 1 } with
            getCount := 1 + 1, inner := .closed }, .done)) ∧
    (tgC3 1 = .notReady →
      incomingBodyPoll rdC3 tgC3 { incomingInit with inner := .trailers, getCount := 1 } =
        ({ { incomingInit with inner := .trailers, getCount := 1 } with
            getCount := 1 + 1,
            trailerRegs := ({ incomingInit with inner := .trailers, getCount := 1 } : IncState).trailerRegs + 1 }, .pending)) :=
  c5_trailer_phase rdC3 tgC3 { incomingInit with inner := .trailers, getCount := 1 } rfl

/-- C7: in the `Reading` state a zero-length successful read registers the
stream's readiness source and suspends, leaving the state in `Reading`; and
the state leaves `Reading` in a poll exactly when the host read reports the
explicit `Closed` signal. -/
theorem c7_zero_length_read (rd : Nat → ReadResult) (tg : Nat → TrailersGet)
    (st : IncState) (h : st.inner = .stream) :
    (rd st.readCount = .ok [] →
      incomingBodyPoll rd tg st =
        ({ st with readCount := st.readCount + 1,
                   streamRegs := st.streamRegs + 1 }, .pending)) ∧
    ((incomingBodyPoll rd tg st).1.inner ≠ .stream ↔ rd st.readCount = .closed) := by
  constructor
  · intro he
    unfold incomingBodyPoll
    rw [h, he]
    rfl
  · unfold incomingBodyPoll
    rw [h]
    cases hr : rd st.readCount with
    | ok buf =>
        by_cases hb : buf.isEmpty <;> simp [hb, h]
    | lastOperationFailed e => simp [h]
    | closed =>
        simp only [iff_true]
        rcases pollTrailers_inner tg
          { st with readCount := st.readCount + 1, streamDropped := true,
                    finishCount := st.finishCount + 1, inner := .trailers } with h1 | h1 <;>
          simp [h1]

/-- Witness for `c7_zero_length_read`: a host whose first read is empty. -/
theorem c7_zero_length_read_witness :
    ((fun _ => ReadResult.ok []) 0 = .ok [] →
      incomingBodyPoll (fun _ => ReadResult.ok []) tgC3 incomingInit =
        ({ incomingInit with readCount := incomingInit.readCount + 1,
                             streamRegs := incomingInit.streamRegs + 1 }, .pending)) ∧
    ((incomingBodyPoll (fun _ => ReadResult.ok []) tgC3 incomingInit).1.inner ≠ .stream ↔
      (fun _ => ReadResult.ok []) 0 = .closed) :=
  c7_zero_length_read (fun _ => ReadResult.ok []) tgC3 incomingInit rfl

/-- The host contract on `stream.read(READ_SIZE)`: a successful read returns
at most `READ_SIZE` bytes. -/
def ReadBound (rd : Nat → ReadResult) : Prop :=
  ∀ n buf, rd n = .ok buf → buf.length ≤ READ_SIZE

/-- C9: under the host read contract, every data chunk the incoming body
stream yields is non-empty and at most `READ_SIZE = 16384` bytes long, from
any state and for any host behaviour. -/
theorem c9_chunk_bounds (rd : Nat → ReadResult) (tg : Nat → TrailersGet)
    (hb : ReadBound rd) (st : IncState) (buf : List Nat)
    (hi : (incomingBodyPoll rd tg st).2 = .item buf) :
    buf ≠ [] ∧ buf.length ≤ READ_SIZE := by
  unfold incomingBodyPoll at hi
  cases h : st.inner with
  | closed => rw [h] at hi; simp at hi
  | trailers => rw [h] at hi; exact absurd hi (pollTrailers_ne_item tg st buf)
  | stream =>
      rw [h] at hi
      cases hr : rd st.readCount with
      | ok buf' =>
          rw [hr] at hi
          by_cases he : buf'.isEmpty
          · simp [he] at hi
          · simp [he] at hi
            subst hi
            exact ⟨by simpa [List.isEmpty_iff] using he, hb _ _ hr⟩
      | lastOperationFailed e => rw [hr] at hi; simp at hi
      | closed =>
          rw [hr] at hi
          exact absurd hi (pollTrailers_ne_item tg _ buf)

/-- Witness for `c9_chunk_bounds` at a host that yields the chunk `[5]`. -/
theorem c9_chunk_bounds_witness : [5] ≠ ([] : List Nat) ∧ [5].length ≤ READ_SIZE :=
  c9_chunk_bounds (fun _ => .ok [5]) tgC3
    (by intro n buf h; simp at h; subst h; decide)
    incomingInit [5] (by decide)

/-! ### The `unreachable!()` in the trailers arm (C10) -/

/-- Host contract on `trailers.get()`: `Some(Err(_))` ("value already
taken") can occur only on a call after some earlier call already returned
`Some(..)`; equivalently, while every earlier call returned `None`, the next
call does not return `Some(Err(_))`. -/
def TrailersContract (tg : Nat → TrailersGet) : Prop :=
  ∀ i, (∀ j, j < i → tg j = .notReady) → tg i ≠ .gotten

/-- Reachability invariant of the incoming stream: no `trailers.get` call is
made before the `Trailers` state, and while in the `Trailers` state every
`get` call made so far returned `None`. -/
def IncInv (tg : Nat → TrailersGet) (st : IncState) : Prop :=
  (st.inner = .stream → st.getCount = 0) ∧
  (st.inner = .trailers → ∀ j, j < st.getCount → tg j = .notReady)

theorem pollTrailers_step (tg : Nat → TrailersGet) (st : IncState)
    (hc : TrailersContract tg) (hi : st.inner = .trailers)
    (hall : ∀ j, j < st.getCount → tg j = .notReady) :
    IncInv tg (pollTrailers tg st).1 ∧ (pollTrailers tg st).2 ≠ .panicked := by
  unfold pollTrailers
  cases htg : tg st.getCount with
  | notReady =>
      refine ⟨⟨by simp [hi], ?_⟩, by simp⟩
      intro _ j hj
      simp at hj
      rcases Nat.lt_succ_iff_lt_or_eq.mp hj with hj' | hj'
      · exact hall j hj'
      · subst hj'; exact htg
  | gotten => exact absurd htg (hc st.getCount hall)
  | available v =>
      cases v with
      | err e => exact ⟨⟨by simp, by simp⟩, by simp⟩
      | ok t => exact ⟨⟨by simp, by simp⟩, by simp⟩

theorem incInv_step (rd : Nat → ReadResult) (tg : Nat → TrailersGet)
    (st : IncState) (hc : TrailersContract tg) (h : IncInv tg st) :
    IncInv tg (incomingBodyPoll rd tg st).1 ∧
    (incomingBodyPoll rd tg st).2 ≠ .panicked := by
  unfold incomingBodyPoll
  cases hi : st.inner with
  | closed => exact ⟨by simpa [hi] using h, by simp⟩
  | trailers => exact pollTrailers_step tg st hc hi (h.2 hi)
  | stream =>
      have h0 : st.getCount = 0 := h.1 hi
      cases hr : rd st.readCount with
      | ok buf =>
          by_cases hb : buf.isEmpty <;> simp [hb, IncInv, h0]
      | lastOperationFailed e =>
          exact ⟨⟨by intro _; simpa using h0, by simp⟩, by simp⟩
      | closed =>
          refine pollTrailers_step tg _ hc rfl ?_
          intro j hj
          simp [h0] at hj

theorem incInv_iter (rd : Nat → ReadResult) (tg : Nat → TrailersGet)
    (hc : TrailersContract tg) (n : Nat) : IncInv tg (incomingIter rd tg n) := by
  induction n with
  | zero => exact ⟨fun _ => rfl, fun h => by simp [incomingIter, incomingInit] at h⟩
  | succ n ih => exact (incInv_step rd tg _ hc ih).1

/-- C10: under the host `trailers.get()` contract, every reachable poll of
the incoming body stream avoids the `unreachable!()` branch — the stream
calls `get()` only while in the `Trailers` state, leaves it for `Closed` on
the first `Some` result, and thus never re-polls a completed trailers
future. -/
theorem c10_unreachable_never_hit (rd : Nat → ReadResult) (tg : Nat → TrailersGet)
    (hc : TrailersContract tg) (n : Nat) :
    (incomingBodyPoll rd tg (incomingIter rd tg n)).2 ≠ .panicked :=
  (incInv_step rd tg _ hc (incInv_iter rd tg hc n)).2

/-- Witness for `c10_unreachable_never_hit`: a host whose stream closes on
the first read and whose trailers stay pending. -/
theorem c10_unreachable_never_hit_witness :
    (incomingBodyPoll (fun _ => ReadResult.closed) tgC3
      (incomingIter (fun _ => ReadResult.closed) tgC3 1)).2 ≠ .panicked :=
  c10_unreachable_never_hit (fun _ => ReadResult.closed) tgC3
    (fun _ _ hg => TrailersGet.noConfusion hg) 1

/-! ### Outgoing body sink (`executor::outgoing_body`)

The per-chunk poll loop of the `sink::unfold` closure: each iteration calls
`stream.check_write()`; `Ok(0)` registers the stream's readiness source and
suspends (the resumed poll re-enters the same loop, so suspension is just a
continuation of the capacity sequence); `Ok(count)` with `count > 0` either
writes `min(count, chunk.len() - offset)` bytes at `offset`, or — once
`offset == chunk.len()` — flushes and finally completes on the next nonzero
capacity; `Err(_)` from `check_write` or `write` aborts with an I/O error.
The host is an arbitrary sequence of `check_write` results (`caps`) plus an
oracle `wr` for the success of the n-th `write` call. -/

/-- Result of one host `stream.check_write()` call. -/
inductive CapResult where
  | cap (n : Nat)
  | err
deriving DecidableEq, Repr

/-- How processing of one chunk ended: chunk fully written, flushed and
acknowledged (`Poll::Ready(Ok(()))`); host I/O error
(`Poll::Ready(Err(..))`); or the capacity sequence ran out while the chunk
was still in progress (the sink is suspended / mid-loop). -/
inductive SinkFinal where
  | completed
  | ioError
  | starved (offset : Nat) (flushing : Bool)
deriving DecidableEq, Repr

/-- Transcript of processing one chunk: every `stream.write` call as
`(offset, reported capacity, bytes passed)`, the number of readiness
registrations (suspensions), the number of `flush` calls, and the final
status. -/
structure ChunkResult where
  writes : List (Nat × Nat × Nat)
  regs : Nat
  flushes : Nat
  final : SinkFinal
deriving DecidableEq, Repr

/-- The per-chunk loop of `outgoing_body`, consuming one `check_write`
result per iteration.  `len` is `chunk.len()`, `wcount` counts `write`
calls, `offset` and `flushing` are the closure-captured loop variables. -/
def outgoingBodyChunk (len : Nat) (wr : Nat → Bool) :
    Nat → Nat → Bool → List CapResult → ChunkResult
  | _, offset, flushing, [] => ⟨[], 0, 0, .starved offset flushing⟩
  | wcount, offset, flushing, .cap 0 :: rest =>
      let r := outgoingBodyChunk len wr wcount offset flushing rest
      { r with regs := r.regs + 1 }
  | wcount, offset, flushing, .cap (n + 1) :: rest =>
      if offset = len then
        if flushing then ⟨[], 0, 0, .completed⟩
        else
          let r := outgoingBodyChunk len wr wcount offset true rest
          { r with flushes := r.flushes + 1 }
      else
        let w := min (n + 1) (len - offset)
        if wr wcount then
          let r := outgoingBodyChunk len wr (wcount + 1) (offset + w) flushing rest
          { r with writes := (offset, n + 1, w) :: r.writes }
        else ⟨[(offset, n + 1, w)], 0, 0, .ioError⟩
  | _, _, _, .err :: _ => ⟨[], 0, 0, .ioError⟩

/-- The write calls form a chain from `o`: each starts exactly at the
current offset, passes exactly `min(capacity, len - offset)` bytes (hence at
most the reported capacity and at most the bytes remaining), is non-empty,
and advances the offset by its own length. -/
def WriteChain (len : Nat) : Nat → List (Nat × Nat × Nat) → Prop
  | _, [] => True
  | o, (off, c, w) :: rest =>
      off = o ∧ w = min c (len - o) ∧ 1 ≤ w ∧ WriteChain len (o + w) rest

/-- Total number of bytes passed to `stream.write` in a transcript. -/
def writesSum (l : List (Nat × Nat × Nat)) : Nat :=
  (l.map (fun t => t.2.2)).sum

theorem outgoingBodyChunk_sound (len : Nat) (wr : Nat → Bool) :
    ∀ (caps : List CapResult) (wcount offset : Nat) (flushing : Bool),
      offset ≤ len →
      WriteChain len offset (outgoingBodyChunk len wr wcount offset flushing caps).writes ∧
      ((outgoingBodyChunk len wr wcount offset flushing caps).final = .completed →
        offset + writesSum (outgoingBodyChunk len wr wcount offset flushing caps).writes = len) := by
  intro caps
  induction caps with
  | nil =>
      intro wcount offset flushing _
      simp [outgoingBodyChunk, WriteChain, writesSum]
  | cons c rest ih =>
      intro wcount offset flushing hle
      cases c with
      | err => simp [outgoingBodyChunk, WriteChain, writesSum]
      | cap n =>
          cases n with
          | zero =>
              simpa [outgoingBodyChunk] using ih wcount offset flushing hle
          | succ m =>
              by_cases ho : offset = len
              · by_cases hf : flushing
                · simp [outgoingBodyChunk, ho, hf, WriteChain, writesSum]
                · simpa [outgoingBodyChunk, ho, hf] using ih wcount offset true hle
              · by_cases hw : wr wcount
                · have hlt : offset < len := Nat.lt_of_le_of_ne hle ho
                  have hw1 : 1 ≤ min (m + 1) (len - offset) := by
                    simp [Nat.le_min]
                    omega
                  have hle' : offset + min (m + 1) (len - offset) ≤ len := by
                    have := Nat.min_le_right (m + 1) (len - offset)
                    omega
                  have := ih (wcount + 1) (offset + min (m + 1) (len - offset)) flushing hle'
                  refine ⟨?_, ?_⟩
                  · simp only [outgoingBodyChunk, ho, hw, if_false, if_true]
                    exact ⟨rfl, rfl, hw1, this.1⟩
                  · intro hc
                    simp only [outgoingBodyChunk, ho, hw, if_false, if_true] at hc ⊢
                    have h2 := this.2 hc
                    simp [writesSum] at h2 ⊢
                    omega
                · have hlt : offset < len := Nat.lt_of_le_of_ne hle ho
                  refine ⟨?_, ?_⟩
                  · simp only [outgoingBodyChunk, ho, hw, if_false]
                    refine ⟨rfl, rfl, ?_, trivial⟩
                    simp [Nat.le_min]
                    omega
                  · intro hc
                    simp [outgoingBodyChunk, ho, hw] at hc

/-- C2: for every chunk length `C`, every host capacity sequence and every
write-success oracle, the sink's writes for that chunk form a chain from
offset 0 — each write starts at the current offset and passes exactly
`min(reported capacity, bytes remaining)` bytes (so never more than either
bound, never an already-sent byte, and each write non-empty, so the
cumulative count is strictly increasing and reaches any value at most once)
— and when the sink reports completion for the chunk the cumulative bytes
written equal `C` exactly. -/
theorem c2_sink_write_progress (len : Nat) (wr : Nat → Bool) (caps : List CapResult) :
    WriteChain len 0 (outgoingBodyChunk len wr 0 0 false caps).writes ∧
    ((outgoingBodyChunk len wr 0 0 false caps).final = .completed →
      writesSum (outgoingBodyChunk len wr 0 0 false caps).writes = len) := by
  have h := outgoingBodyChunk_sound len wr caps 0 0 false (Nat.zero_le len)
  exact ⟨h.1, fun hc => by simpa using h.2 hc⟩

/-! ### Task executor (`executor::run`)

One poll of the driven future either completes with a value or returns
`Pending` after pushing some `(pollable, waker)` registrations onto the
global `WAKERS` table.  On `Pending` the executor `mem::take`s the whole
table, asserts it non-empty, issues the host multi-wait `io::poll::poll`
over all registered sources, wakes the fired entries (dropping them) and
re-inserts the unfired ones, then polls again.  Readiness sources are
modelled as naturals; the host multi-wait is an oracle `fires` telling, per
round, which sources fire. -/

/-- Result of one poll of the driven future: `Poll::Pending` together with
the readiness sources the poll registered on `WAKERS`, or
`Poll::Ready(v)`. -/
inductive StepRes (T : Type) where
  | pending (regs : List Nat)
  | ready (v : T)
deriving DecidableEq, Repr

/-- Result of `executor::run`: the future's value together with the number
of multi-wait rounds taken and the final contents of `WAKERS`; the
`assert!(!wakers.is_empty())` failure with the number of multi-waits issued
before it; or fuel exhaustion of the model. -/
inductive RunOut (T : Type) where
  | ok (v : T) (waits : Nat) (leftover : List Nat)
  | assertFail (waits : Nat)
  | outOfFuel
deriving DecidableEq, Repr

/-- The loop of `executor::run`.  `comp k` is the result of the k-th poll of
the future; `fires r s` tells whether source `s` is reported ready by the
multi-wait of round `r`; `waits` counts multi-wait rounds issued so far and
`wakers` is the current `WAKERS` table. -/
def runAux {T : Type} (comp : Nat → StepRes T) (fires : Nat → Nat → Bool) :
    Nat → Nat → Nat → List Nat → RunOut T
  | 0, _, _, _ => .outOfFuel
  | fuel + 1, k, waits, wakers =>
      match comp k with
      | .ready v => .ok v waits wakers
      | .pending regs =>
          let all := wakers ++ regs
          if all.isEmpty then .assertFail waits
          else
            runAux comp fires fuel (k + 1) (waits + 1)
              (all.filter (fun s => ! fires waits s))

/-- `executor::run`: start polling at the first poll with an empty `WAKERS`
table (the static initializer) and no multi-waits issued. -/
def executorRun {T : Type} (comp : Nat → StepRes T) (fires : Nat → Nat → Bool)
    (fuel : Nat) : RunOut T :=
  runAux comp fires fuel 0 0 []

theorem runAux_succ {T : Type} (comp : Nat → StepRes T) (fires : Nat → Nat → Bool)
    (fuel k waits : Nat) (wakers : List Nat) :
    runAux comp fires (fuel + 1) k waits wakers =
      match comp k with
      | .ready v => .ok v waits wakers
      | .pending regs =>
          let all := wakers ++ regs
          if all.isEmpty then .assertFail waits
          else
            runAux comp fires fuel (k + 1) (waits + 1)
              (all.filter (fun s => ! fires waits s)) := rfl

theorem runAux_rounds {T : Type} (comp : Nat → StepRes T) (src : Nat → Nat)
    (fires : Nat → Nat → Bool) (N : Nat) (v : T)
    (h1 : ∀ k, k < N → comp k = .pending [src k])
    (h2 : comp N = .ready v)
    (h3 : ∀ k, k < N → fires k (src k) = true) :
    ∀ d k, k + d = N → runAux comp fires (d + 1) k k [] = .ok v N [] := by
  intro d
  induction d with
  | zero =>
      intro k hk
      have hkN : k = N := by omega
      subst hkN
      rw [runAux_succ, h2]
  | succ d ih =>
      intro k hk
      have hkN : k < N := by omega
      rw [runAux_succ, h1 k hkN]
      simp only [List.nil_append, List.isEmpty_cons, List.filter_cons, h3 k hkN,
        Bool.not_true, List.filter_nil, if_false, Bool.false_eq_true]
      exact ih (k + 1) (by omega)

/-- C4: for a computation that completes with `v` only after `N` readiness
cycles — poll `k < N` returns pending after registering the single source
`src k`, which the host fires in round `k` — `executor::run` issues exactly
`N` multi-wait rounds, returns `v` unchanged, and leaves the `WAKERS`
registry empty (each round swaps the whole registry out, drops the fired
entries and re-inserts the unfired ones, here none). -/
theorem c4_executor_rounds {T : Type} (comp : Nat → StepRes T) (src : Nat → Nat)
    (fires : Nat → Nat → Bool) (N : Nat) (v : T)
    (h1 : ∀ k, k < N → comp k = .pending [src k])
    (h2 : comp N = .ready v)
    (h3 : ∀ k, k < N → fires k (src k) = true) :
    executorRun comp fires (N + 1) = .ok v N [] :=
  runAux_rounds comp src fires N v h1 h2 h3 N 0 (by omega)

/-- Concrete computation for the C4 witness: pending twice on sources 10
and 11, then ready with 42. -/
def compC4 : Nat → StepRes Nat :=
  fun k => if k < 2 then .pending [k + 10] else .ready 42

/-- Witness for `c4_executor_rounds`: `N = 2`, everything fires. -/
theorem c4_executor_rounds_witness :
    executorRun compC4 (fun _ _ => true) (2 + 1) = .ok 42 2 [] :=
  c4_executor_rounds compC4 (fun k => k + 10) (fun _ _ => true) 2 42
    (by decide) (by decide) (by decide)

/-- C6: whenever the driven computation reports pending while the readiness
registry is empty (no carried-over entries and no fresh registrations from
that poll), `executor::run` fails the `assert!(!wakers.is_empty())` with the
multi-wait count unchanged — the host multi-wait is never issued over an
empty set of sources. -/
theorem c6_assert_on_empty_pending {T : Type} (comp : Nat → StepRes T)
    (fires : Nat → Nat → Bool) (fuel k waits : Nat)
    (h : comp k = .pending []) :
    runAux comp fires (fuel + 1) k waits [] = .assertFail waits := by
  simp [runAux, h]

/-- Witness for `c6_assert_on_empty_pending`: a computation that is
immediately pending with no registrations. -/
theorem c6_assert_on_empty_pending_witness :
    runAux (fun _ => (StepRes.pending [] : StepRes Nat)) (fun _ _ => true) (0 + 1) 0 0 [] =
      .assertFail 0 :=
  c6_assert_on_empty_pending (fun _ => (StepRes.pending [] : StepRes Nat))
    (fun _ _ => true) 0 0 0 rfl

/-! ### Dispatch bridge (`executor::outgoing_request_send`)

The closure holds `response = outgoing_handler::handle(request, None)`.  On
each poll: if `handle` itself failed, return its error; otherwise consult
`response.get()` — `None` registers the response handle's readiness source
and reports pending, `Some(res)` returns `res.unwrap()`, i.e. the success
payload or the protocol-level error as-is. -/

/-- Result of `outgoing_handler::handle`: the response future, or an
immediate error code. -/
inductive HandleResult where
  | ok
  | err (code : Nat)
deriving DecidableEq, Repr

/-- The `Result<IncomingResponse, ErrorCode>` a resolved response future
carries. -/
inductive RespResult where
  | ok (resp : Nat)
  | err (code : Nat)
deriving DecidableEq, Repr

/-- Result of one `response.get()` call: `None` (unresolved),
`Some(Ok(r))`, or `Some(Err(_))` (value already taken). -/
inductive GetResult where
  | notYet
  | resolved (r : RespResult)
  | consumed
deriving DecidableEq, Repr

/-- Outcome of one poll of the bridge future. -/
inductive SendOut where
  | pending
  | ready (r : RespResult)
  | panicked
deriving DecidableEq, Repr

/-- One poll of the bridge: the outcome together with the number of
readiness sources registered onto `WAKERS` by this poll. -/
structure SendPollRes where
  regs : Nat
  out : SendOut
deriving DecidableEq, Repr

/-- One poll of `outgoing_request_send`, with `g` the current result of
`response.get()`. -/
def outgoingRequestSendPoll (handle : HandleResult) (g : GetResult) : SendPollRes :=
  match handle with
  | .err e => ⟨0, .ready (.err e)⟩
  | .ok =>
      match g with
      | .notYet => ⟨1, .pending⟩
      | .resolved r => ⟨0, .ready r⟩
      | .consumed => ⟨0, .panicked⟩

/-- C8: a poll of the dispatch bridge before the host response handle has
resolved reports pending and registers exactly one readiness source; a poll
at or after resolution returns the terminal result — the success payload or
the protocol-level error exactly as resolved, with no retry — and registers
no readiness source; and a failed `handle` call is likewise returned as-is
with no registration. -/
theorem c8_dispatch_bridge (handle : HandleResult) (g : GetResult) :
    (handle = .ok → g = .notYet →
      outgoingRequestSendPoll handle g = ⟨1, .pending⟩) ∧
    (∀ r, handle = .ok → g = .resolved r →
      outgoingRequestSendPoll handle g = ⟨0, .ready r⟩) ∧
    (∀ e, handle = .err e →
      outgoingRequestSendPoll handle g = ⟨0, .ready (.err e)⟩) := by
  refine ⟨?_, ?_, ?_⟩
  · intro hh hg
    subst hh; subst hg; rfl
  · intro r hh hg
    subst hh; subst hg; rfl
  · intro e hh
    subst hh; rfl

/-- Witness for `c8_dispatch_bridge` at a resolved protocol-level error. -/
theorem c8_dispatch_bridge_witness :
    (HandleResult.ok = .ok → GetResult.resolved (.err 3) = .notYet →
      outgoingRequestSendPoll .ok (.resolved (.err 3)) = ⟨1, .pending⟩) ∧
    (∀ r, HandleResult.ok = .ok → GetResult.resolved (.err 3) = .resolved r →
      outgoingRequestSendPoll .ok (.resolved (.err 3)) = ⟨0, .ready r⟩) ∧
    (∀ e, HandleResult.ok = .err e →
      outgoingRequestSendPoll .ok (.resolved (.err 3)) = ⟨0, .ready (.err e)⟩) :=
  c8_dispatch_bridge .ok (.resolved (.err 3))

end OAIC
